import Mathlib

/-!
# Verification of the EchoBreeze Embeddable Color Picker core

A shallow embedding, over exact rational arithmetic, of the color-model and
session logic of `ebecp-color-picker.js` (the "Color Model & Sync Engine"):

* the color-space converters `hslToRgb`, `rgbToHsl`, `rgbToHex`, `hexToRgb`,
  `parseColor`;
* the state-transition logic of the pointer, keyboard and alpha handlers;
* the `open` / `confirm` / `close` session lifecycle, with callback
  invocations recorded as a ghost trace.

JavaScript numbers are modelled as `ℚ` (the code performs only field
operations, comparisons, rounding and remainders on them); `NaN`, which can
only arise in `parseColor`'s numeric conversion, is modelled by `Option ℚ`
at that one interface.  The results of the transcendental operations
`Math.atan2` and `Math.sqrt` in the wheel pointer handler are passed in as
parameters constrained to the ranges those functions guarantee.
-/

namespace EBECP

/-- JavaScript `x % 1` (the sign of a remainder follows the dividend). -/
def jsMod1 (x : ℚ) : ℚ := if 0 ≤ x then Int.fract x else -Int.fract (-x)

/-- The mutable `colorState` record `{h, s, l, a}` of the picker. -/
structure ColorState where
  h : ℚ
  s : ℚ
  l : ℚ
  a : ℚ
  deriving Repr, DecidableEq

/-- An rgba quadruple as painted on a surface (`rgba(r, g, b, a)`). -/
structure Rgba where
  r : ℚ
  g : ℚ
  b : ℚ
  a : ℚ
  deriving Repr, DecidableEq

/-- The helper closure `hue2rgb(p, q, t)` inside `hslToRgb`. -/
def hue2rgb (p q t : ℚ) : ℚ :=
  let t1 := if t < 0 then t + 1 else t
  let t2 := if t1 > 1 then t1 - 1 else t1
  if t2 < 1/6 then p + (q - p) * 6 * t2
  else if t2 < 1/2 then q
  else if t2 < 2/3 then p + (q - p) * (2/3 - t2) * 6
  else p

/-- `hslToRgb(h,s,l)`: fractional HSL to integer RGB channels, each channel
rounded with `Math.round` (round half towards positive infinity, which is
`round` on `ℚ`). -/
def hslToRgb (h s l : ℚ) : ℤ × ℤ × ℤ :=
  if s = 0 then
    (round (l * 255), round (l * 255), round (l * 255))
  else
    let q := if l < 1/2 then l * (1 + s) else l + s - l * s
    let p := 2 * l - q
    (round (hue2rgb p q (h + 1/3) * 255),
     round (hue2rgb p q h * 255),
     round (hue2rgb p q (h - 1/3) * 255))

/-- The `q` computed by `hslToRgb` in its chromatic branch
(`const q = l < 0.5 ? l*(1+s) : l+s-l*s`), as a function of `s` and `l`,
named so that equational reasoning can refer to it. -/
def qOf (s l : ℚ) : ℚ := if l < 1/2 then l * (1 + s) else l + s - l * s

/-- Body of `rgbToHsl` after its first statement `r/=255;g/=255;b/=255`,
operating on the normalized channels.  The `switch (max)` of the source
tries `case r`, then `case g`, then `case b`; since `max` is one of the
three values the final case is an `else`. -/
def rgbToHslCore (r1 g1 b1 : ℚ) : ℚ × ℚ × ℚ :=
  let mx := max r1 (max g1 b1)
  let mn := min r1 (min g1 b1)
  let l := (mx + mn) / 2
  if mx = mn then (0, 0, l)
  else
    let d := mx - mn
    let s := if l > 1/2 then d / (2 - mx - mn) else d / (mx + mn)
    let h := if mx = r1 then (g1 - b1) / d + (if g1 < b1 then 6 else 0)
             else if mx = g1 then (b1 - r1) / d + 2
             else (r1 - g1) / d + 4
    (h / 6, s, l)

/-- `rgbToHsl(r,g,b)`: RGB channels (0–255) to fractional HSL. -/
def rgbToHsl (r g b : ℚ) : ℚ × ℚ × ℚ :=
  rgbToHslCore (r / 255) (g / 255) (b / 255)

/-! ## Pointer and keyboard state transitions -/

/-- `handleWheelMove(coords)`, acting on the current `colorState`.

The source computes `dx`, `dy` from the pointer position, then
`dist = Math.sqrt(dx*dx + dy*dy)` and `angle = Math.atan2(dy, dx)`.
`Math.sqrt` and `Math.atan2` are transcendental, so their results are taken
here as the parameters `dist` and `angle2pi`, where `angle2pi` stands for
`angle / (2*Math.PI)`.  For every real input, `dist ≥ 0` and
`angle2pi ∈ (-1/2, 1/2]` (the range of `atan2` is `(-π, π]`); theorems
assume exactly those ranges.  `radius` is `wheel.width / 2`. -/
def handleWheelMove (radius dist angle2pi : ℚ) (c : ColorState) : ColorState :=
  let dist1 := if dist > radius then radius else dist
  { h := jsMod1 (angle2pi + 1),
    s := dist1 / radius,
    l := if c.l = 1 ∨ c.l = 0 then 1/2 else c.l,
    a := c.a }

/-- `handleLightnessMove(coords)`: `x` is `coords.x - rect.left` and `width`
the slider width; `x = Math.max(0, Math.min(x, width)); l = x / width`. -/
def handleLightnessMove (x width : ℚ) (c : ColorState) : ColorState :=
  { c with l := max 0 (min x width) / width }

/-- The `e.key` values the two keydown handlers dispatch on; `other` stands
for every key that matches no `case` (the handlers then make no update). -/
inductive Key where
  | arrowLeft
  | arrowRight
  | arrowUp
  | arrowDown
  | other
  deriving Repr, DecidableEq

/-- The wheel `keydown` handler: arrows adjust hue (wrapping `% 1`) or
saturation (clamped), with step 0.05 when shift is held, else 0.01. -/
def wheelKeydown (key : Key) (shift : Bool) (c : ColorState) : ColorState :=
  let step : ℚ := if shift then 5/100 else 1/100
  match key with
  | Key.arrowLeft => { c with h := jsMod1 (c.h - step + 1) }
  | Key.arrowRight => { c with h := jsMod1 (c.h + step) }
  | Key.arrowUp => { c with s := min 1 (c.s + step) }
  | Key.arrowDown => { c with s := max 0 (c.s - step) }
  | Key.other => c

/-- The lightness-slider `keydown` handler: arrows adjust lightness, clamped
into `[0,1]`, with step 0.05 when shift is held, else 0.01. -/
def lightnessKeydown (key : Key) (shift : Bool) (c : ColorState) : ColorState :=
  let step : ℚ := if shift then 5/100 else 1/100
  match key with
  | Key.arrowLeft => { c with l := max 0 (c.l - step) }
  | Key.arrowRight => { c with l := min 1 (c.l + step) }
  | _ => c

/-! ## Textual color encodings -/

/-- `\d` of the source regexes: an ASCII decimal digit. -/
def isDig (c : Char) : Bool := decide (48 ≤ c.toNat ∧ c.toNat ≤ 57)

/-- `[a-f\d]` with the `i` flag: an ASCII hexadecimal digit, either case. -/
def isHexDig (c : Char) : Bool :=
  isDig c || decide (97 ≤ c.toNat ∧ c.toNat ≤ 102) || decide (65 ≤ c.toNat ∧ c.toNat ≤ 70)

/-- The numeric value of a hexadecimal digit character. -/
def hexVal (c : Char) : ℕ :=
  if isDig c then c.toNat - 48
  else if 97 ≤ c.toNat then c.toNat - 87
  else c.toNat - 55

/-- `parseInt(d1 ++ d2, 16)` on a two-hex-digit group. -/
def hexPair (c1 c2 : Char) : ℕ := 16 * hexVal c1 + hexVal c2

/-- The `#?` prefix of the `hexToRgb` regex: an optional leading `#`. -/
def stripHash (cs : List Char) : List Char :=
  match cs with
  | '#' :: rest => rest
  | cs1 => cs1

/-- `hexToRgb(hex)`: matches
`/^#?([a-f\d]{2})([a-f\d]{2})([a-f\d]{2})([a-f\d]{2})?$/i`; on success the
four two-digit groups sit at fixed positions of the digit list (the fourth,
when present, scaled by 255 into an alpha fraction); on failure the result
is the fallback `{r:0, g:0, b:0, a:1}`. -/
def hexToRgb (hex : String) : Rgba :=
  let cs := stripHash hex.data
  if cs.length = 6 ∧ cs.all isHexDig = true then
    ⟨hexPair (cs.getD 0 '0') (cs.getD 1 '0'), hexPair (cs.getD 2 '0') (cs.getD 3 '0'),
     hexPair (cs.getD 4 '0') (cs.getD 5 '0'), 1⟩
  else if cs.length = 8 ∧ cs.all isHexDig = true then
    ⟨hexPair (cs.getD 0 '0') (cs.getD 1 '0'), hexPair (cs.getD 2 '0') (cs.getD 3 '0'),
     hexPair (cs.getD 4 '0') (cs.getD 5 '0'),
     (hexPair (cs.getD 6 '0') (cs.getD 7 '0') : ℚ) / 255⟩
  else ⟨0, 0, 0, 1⟩

/-- A character matched by `[\d.]`. -/
def isNumChar (c : Char) : Bool := isDig c || c == '.'

/-- `colorString.match(/[\d.]+/g)`: the maximal runs of digit/dot
characters, in order ( `[]` when there is no match). -/
def numRuns (cs : List Char) : List (List Char) :=
  match cs with
  | [] => []
  | c :: rest =>
    if isNumChar c then
      (c :: rest.takeWhile isNumChar) :: numRuns (rest.dropWhile isNumChar)
    else
      numRuns rest
termination_by cs.length
decreasing_by
  · simp only [List.length_cons]
    exact Nat.lt_succ_of_le (List.dropWhile_sublist _).length_le
  · simp only [List.length_cons]
    exact Nat.lt_succ_of_le (Nat.le_refl _)

/-- `ds.foldl`-style decimal reading of a run of digit characters. -/
def digitsToNat (ds : List Char) : ℕ := ds.foldl (fun n c => 10 * n + (c.toNat - 48)) 0

/-- The JavaScript unary `+` conversion applied to a string matched by
`[\d.]+`: a number when the run has at most one dot and at least one digit,
`NaN` (here `none`) otherwise (e.g. `+"1.2.3"` or `+"."`). -/
def jsNum (cs : List Char) : Option ℚ :=
  let dots := cs.count '.'
  if dots = 0 then some (digitsToNat cs)
  else if dots = 1 then
    let intPart := cs.takeWhile (fun c => !(c == '.'))
    let fracPart := (cs.dropWhile (fun c => !(c == '.'))).drop 1
    if intPart.isEmpty ∧ fracPart.isEmpty then none
    else some ((digitsToNat intPart : ℚ) + (digitsToNat fracPart : ℚ) / 10 ^ fracPart.length)
  else none

/-- `colorString.startsWith('rgb')`. -/
def startsWithRgb (cs : List Char) : Bool :=
  match cs with
  | 'r' :: 'g' :: 'b' :: _ => true
  | _ => false

/-- `colorString.startsWith('#')`. -/
def startsWithHash (cs : List Char) : Bool :=
  match cs with
  | '#' :: _ => true
  | _ => false

/-- `parseColor(colorString) -> [r,g,b,a]`.  A JavaScript number that may be
`NaN` is modelled as `Option ℚ` with `none` for `NaN`; `NaN` can only arise
from the unary `+` conversions of the `rgb` branch.  The source falls
through its first `if` (when the prefix is not `rgb` or fewer than three
runs matched) to the `#` test and then to the opaque-black fallback; a
string cannot start with both `rgb` and `#`, so the branch order below is
equivalent. -/
def parseColor (s : String) : Option ℚ × Option ℚ × Option ℚ × Option ℚ :=
  if startsWithRgb s.data = true ∧ 3 ≤ (numRuns s.data).length then
    let parts := numRuns s.data
    (jsNum (parts.getD 0 []), jsNum (parts.getD 1 []), jsNum (parts.getD 2 []),
     match parts.get? 3 with
     | some p => jsNum p
     | none => some 1)
  else if startsWithHash s.data = true then
    let c := hexToRgb s
    (some c.r, some c.g, some c.b, some c.a)
  else
    (some 0, some 0, some 0, some 1)

/-- A hexadecimal digit character, lowercase, as produced by
`Number.prototype.toString(16)`. -/
def hexDigitChar (n : ℕ) : Char :=
  if n < 10 then Char.ofNat (48 + n) else Char.ofNat (87 + n)

/-- `n.toString(16)` for a natural number: lowercase hex digits, no padding. -/
def toString16 (n : ℕ) : List Char :=
  if n < 16 then [hexDigitChar n]
  else toString16 (n / 16) ++ [hexDigitChar (n % 16)]
termination_by n
decreasing_by
  exact Nat.div_lt_self (by omega) (by omega)

/-- `n.toString(16)` for an integer (a `-` sign precedes the digits of the
absolute value when negative). -/
def jsIntToString16 (n : ℤ) : List Char :=
  if n < 0 then '-' :: toString16 n.natAbs else toString16 n.toNat

/-- The helper `toHex = c => ('0' + Math.round(c).toString(16)).slice(-2)`
inside `rgbToHex`; `slice(-2)` keeps the last two characters. -/
def toHex (c : ℚ) : List Char :=
  let ds := '0' :: jsIntToString16 (round c)
  ds.drop (ds.length - 2)

/-- `rgbToHex(r,g,b,a)`: `#RRGGBB`, with `AA` appended only when the alpha
argument is defined (`some`) and not equal to 1, then `toUpperCase()`
(modelled per character, which is exact on ASCII). -/
def rgbToHex (r g b : ℚ) (a : Option ℚ) : String :=
  let hex := '#' :: (toHex r ++ toHex g ++ toHex b)
  let hex2 :=
    match a with
    | some av => if av ≠ 1 then hex ++ toHex (av * 255) else hex
    | none => hex
  String.mk (hex2.map Char.toUpper)

/-- Specification-side normal form for one uppercase hex byte: the claim
C9's "two hex digits encoding" a value `n ≤ 255`. -/
def hexPairU (n : ℕ) : List Char :=
  [Char.toUpper (hexDigitChar (n / 16)), Char.toUpper (hexDigitChar (n % 16))]

/-- Specification-side predicate for claim C10: a well-formed 6- or 8-digit
hex string (optionally `#`-prefixed), i.e. exactly the strings accepted by
the `hexToRgb` regex. -/
def wellFormedHex (s : String) : Bool :=
  let cs := stripHash s.data
  (decide (cs.length = 6) || decide (cs.length = 8)) && cs.all isHexDig

/-! ## The session (open / confirm / close, edit modes, render)

Module state is gathered into a `Session` record.  DOM surfaces appear only
through the colors painted on them (`previewColor`, `currentSwatchColor`,
`backgroundColor`); reading the comparison background back through
`getComputedStyle` is modelled as reading the stored `backgroundColor`
value.  The stored `onConfirm` callback is modelled by the flag
`hasCallback` (`onConfirmCallback !== null`) plus a ghost trace `emitted`
recording, in order, the values passed to callback invocations. -/

/-- The `editMode` enumeration. -/
inductive EditMode where
  | swatch
  | background
  deriving Repr, DecidableEq

/-- The module-level mutable state of the picker. -/
structure Session where
  colorState : ColorState
  originalColorState : ColorState
  previousColorState : ColorState
  swatchStateCache : ColorState
  hasCallback : Bool
  editMode : EditMode
  isOpen : Bool
  backgroundColor : Rgba
  currentSwatchColor : Rgba
  previewColor : Rgba
  emitted : List ColorState
  deriving Repr, DecidableEq

/-- `render()`: paints the preview always; in swatch mode paints the current
swatch and caches the live state into `swatchStateCache`; in background mode
paints the comparison background.  Cursor/text displays carry no state that
later reads feed on, except the painted colors kept here. -/
def render (st : Session) : Session :=
  let c := st.colorState
  let rgb := hslToRgb c.h c.s c.l
  let painted : Rgba := ⟨(rgb.1 : ℚ), (rgb.2.1 : ℚ), (rgb.2.2 : ℚ), c.a⟩
  if st.editMode = EditMode.swatch then
    { st with previewColor := painted, currentSwatchColor := painted, swatchStateCache := c }
  else
    { st with previewColor := painted, backgroundColor := painted }

/-- `setEditMode(mode)`: entering background mode re-reads the color painted
on the comparison background (via `getComputedStyle`) into the live state;
entering swatch mode restores `swatchStateCache`; then renders. -/
def setEditMode (mode : EditMode) (st : Session) : Session :=
  let st1 := { st with editMode := mode }
  let st2 :=
    if mode = EditMode.background then
      let bg := st1.backgroundColor
      let hsl := rgbToHsl bg.r bg.g bg.b
      { st1 with colorState := ⟨hsl.1, hsl.2.1, hsl.2.2, bg.a⟩ }
    else
      { st1 with colorState := st1.swatchStateCache }
  render st2

/-- `open(config)` (named `openPicker` because `open` is a Lean keyword),
taking the already-parsed original and current colors: seeds the live state
and the three snapshots, stores the callback, enters the open state, resets
the edit mode to swatch and initializes (which renders). -/
def openPicker (orig curr : Rgba) (st : Session) : Session :=
  let hc := rgbToHsl curr.r curr.g curr.b
  let cur : ColorState := ⟨hc.1, hc.2.1, hc.2.2, curr.a⟩
  let ho := rgbToHsl orig.r orig.g orig.b
  let st1 := { st with
    colorState := cur,
    previousColorState := cur,
    swatchStateCache := cur,
    originalColorState := ⟨ho.1, ho.2.1, ho.2.2, orig.a⟩,
    hasCallback := true,
    isOpen := true }
  render (setEditMode EditMode.swatch st1)

/-- `close()`: leaves the open state and clears the stored callback. -/
def close (st : Session) : Session :=
  { st with isOpen := false, hasCallback := false }

/-- `confirm()`: when a callback is stored, invokes it once with
`previousColorState` in background mode, else `swatchStateCache`
(invocation = appending the value to the `emitted` trace); then `close()`. -/
def confirm (st : Session) : Session :=
  let st1 :=
    if st.hasCallback then
      { st with emitted := st.emitted ++
          [if st.editMode = EditMode.background then st.previousColorState
           else st.swatchStateCache] }
    else st
  close st1

/-- One user-visible state-mutating operation on an open session: the event
handlers of the source, plus the lifecycle calls. -/
inductive Op where
  | openPicker (orig curr : Rgba)
  | wheelMove (radius dist angle2pi : ℚ)
  | lightnessMove (x width : ℚ)
  | wheelKey (key : Key) (shift : Bool)
  | lightnessKey (key : Key) (shift : Bool)
  | alphaInput (v : ℚ)
  | toggleMode
  | restorePrevious
  | restoreOriginal
  | eyedropper (hex : String)
  | confirmPick
  | closePicker

/-- Dispatch of an operation to the handler code of the source.  Handlers
that update the state call `render()`; the keydown handlers skip both update
and render for keys matching no `case`; the two restore buttons are guarded
by `editMode === 'swatch'`; the eyedropper resolves with an `sRGBHex` string
and sets alpha to 1; the alpha slider is a bounded input constrained to
`[0,1]`. -/
def applyOp (op : Op) (st : Session) : Session :=
  match op with
  | Op.openPicker orig curr => openPicker orig curr st
  | Op.wheelMove radius dist angle2pi =>
      render { st with colorState := handleWheelMove radius dist angle2pi st.colorState }
  | Op.lightnessMove x width =>
      render { st with colorState := handleLightnessMove x width st.colorState }
  | Op.wheelKey key shift =>
      if key = Key.other then st
      else render { st with colorState := wheelKeydown key shift st.colorState }
  | Op.lightnessKey key shift =>
      if key = Key.arrowLeft ∨ key = Key.arrowRight then
        render { st with colorState := lightnessKeydown key shift st.colorState }
      else st
  | Op.alphaInput v =>
      render { st with colorState := { st.colorState with a := v } }
  | Op.toggleMode =>
      setEditMode (if st.editMode = EditMode.swatch then EditMode.background
                   else EditMode.swatch) st
  | Op.restorePrevious =>
      if st.editMode = EditMode.swatch then
        render { st with colorState := st.previousColorState }
      else st
  | Op.restoreOriginal =>
      if st.editMode = EditMode.swatch then
        render { st with colorState := st.originalColorState }
      else st
  | Op.eyedropper hex =>
      let c := hexToRgb hex
      let hsl := rgbToHsl c.r c.g c.b
      render { st with colorState := ⟨hsl.1, hsl.2.1, hsl.2.2, 1⟩ }
  | Op.confirmPick => confirm st
  | Op.closePicker => close st

/-- Folding a list of operations over a session, oldest first. -/
def applyOps (ops : List Op) (st : Session) : Session :=
  ops.foldl (fun s op => applyOp op s) st

/-- The spec's ColorState invariant: all four fields in `[0,1]`. -/
def ValidState (c : ColorState) : Prop :=
  0 ≤ c.h ∧ c.h ≤ 1 ∧ 0 ≤ c.s ∧ c.s ≤ 1 ∧ 0 ≤ c.l ∧ c.l ≤ 1 ∧ 0 ≤ c.a ∧ c.a ≤ 1

/-- A painted rgba value with channels in `[0,255]` and alpha in `[0,1]`,
as every color computed by a browser (and by `hslToRgb`) is. -/
def ValidRgba (c : Rgba) : Prop :=
  0 ≤ c.r ∧ c.r ≤ 255 ∧ 0 ≤ c.g ∧ c.g ≤ 255 ∧ 0 ≤ c.b ∧ c.b ≤ 255 ∧ 0 ≤ c.a ∧ c.a ≤ 1

/-- The inductive session invariant: the live state, the three snapshots and
the painted comparison background are all in range. -/
def SessionInv (st : Session) : Prop :=
  ValidState st.colorState ∧ ValidState st.swatchStateCache ∧
  ValidState st.previousColorState ∧ ValidState st.originalColorState ∧
  ValidRgba st.backgroundColor

/-- The arguments an operation can actually carry at runtime: parsed colors
in channel range, `Math.sqrt ≥ 0`, `Math.atan2/(2π) ∈ (-1/2, 1/2]`, positive
control dimensions, and a bounded alpha input. -/
def Op.Valid : Op → Prop
  | Op.openPicker orig curr => ValidRgba orig ∧ ValidRgba curr
  | Op.wheelMove radius dist angle2pi =>
      0 < radius ∧ 0 ≤ dist ∧ -(1/2) < angle2pi ∧ angle2pi ≤ 1/2
  | Op.lightnessMove _ width => 0 < width
  | Op.alphaInput v => 0 ≤ v ∧ v ≤ 1
  | _ => True

/-- Whether an operation is the `open` lifecycle call (which reseeds all
session state). -/
def Op.isOpenCall : Op → Bool
  | Op.openPicker _ _ => true
  | _ => false


/-- A concrete session used to instantiate theorems at specific inputs. -/
def sampleSession : Session :=
  { colorState := ⟨0, 1, 1/2, 1⟩,
    originalColorState := ⟨0, 0, 0, 1⟩,
    previousColorState := ⟨0, 0, 0, 1⟩,
    swatchStateCache := ⟨0, 1, 1/2, 1⟩,
    hasCallback := true,
    editMode := EditMode.swatch,
    isOpen := true,
    backgroundColor := ⟨255, 255, 255, 1⟩,
    currentSwatchColor := ⟨255, 0, 0, 1⟩,
    previewColor := ⟨255, 0, 0, 1⟩,
    emitted := [] }

/-! ## Theorems

### Claim C4 : the HSL round trip reproduces every RGB triple -/

set_option maxHeartbeats 1000000

lemma hslToRgb_chromatic (h s l : ℚ) (hs : s ≠ 0) :
    hslToRgb h s l =
      (round (hue2rgb (2 * l - qOf s l) (qOf s l) (h + 1/3) * 255),
       round (hue2rgb (2 * l - qOf s l) (qOf s l) h * 255),
       round (hue2rgb (2 * l - qOf s l) (qOf s l) (h - 1/3) * 255)) := by
  simp only [hslToRgb, qOf, if_neg hs]

lemma hslToRgb_achromatic (h l : ℚ) :
    hslToRgb h 0 l = (round (l * 255), round (l * 255), round (l * 255)) := by
  simp [hslToRgb]

lemma hue2rgb_of_lt_sixth (p q t : ℚ) (h0 : 0 ≤ t) (h1 : t < 1/6) :
    hue2rgb p q t = p + (q - p) * 6 * t := by
  simp only [hue2rgb]
  split_ifs <;> first | rfl | linarith

lemma hue2rgb_of_lt_half (p q t : ℚ) (h0 : 1/6 ≤ t) (h1 : t < 1/2) :
    hue2rgb p q t = q := by
  simp only [hue2rgb]
  split_ifs <;> first | rfl | linarith

lemma hue2rgb_of_lt_two_thirds (p q t : ℚ) (h0 : 1/2 ≤ t) (h1 : t < 2/3) :
    hue2rgb p q t = p + (q - p) * (2/3 - t) * 6 := by
  simp only [hue2rgb]
  split_ifs <;> first | rfl | linarith

lemma hue2rgb_of_ge_two_thirds (p q t : ℚ) (h0 : 2/3 ≤ t) (h1 : t ≤ 1) :
    hue2rgb p q t = p := by
  simp only [hue2rgb]
  split_ifs <;> first | rfl | linarith

lemma hue2rgb_wrap_up_p (p q t : ℚ) (h0 : -(1/3) ≤ t) (h1 : t < 0) :
    hue2rgb p q t = p := by
  simp only [hue2rgb]
  split_ifs <;> first | rfl | linarith

lemma hue2rgb_wrap_down_seg1 (p q t : ℚ) (h0 : 1 < t) (h1 : t < 7/6) :
    hue2rgb p q t = p + (q - p) * 6 * (t - 1) := by
  simp only [hue2rgb]
  split_ifs <;> first | rfl | linarith

lemma hue2rgb_wrap_down_q (p q t : ℚ) (h0 : 7/6 ≤ t) (h1 : t < 3/2) :
    hue2rgb p q t = q := by
  simp only [hue2rgb]
  split_ifs <;> first | rfl | linarith

lemma qOf_eq_max (mx mn s : ℚ) (hmn0 : 0 ≤ mn) (hlt : mn < mx) (hmx1 : mx ≤ 1)
    (hs : s = if (mx + mn) / 2 > 1/2 then (mx - mn) / (2 - mx - mn) else (mx - mn) / (mx + mn)) :
    qOf s ((mx + mn) / 2) = mx := by
  have h1 : (0:ℚ) < mx + mn := by linarith
  have h2 : (0:ℚ) < 2 - mx - mn := by linarith
  unfold qOf
  rcases lt_trichotomy ((mx + mn) / 2) (1/2) with h | h | h
  · rw [if_pos h, hs, if_neg (by linarith)]
    field_simp
    ring
  · have hsum : mx + mn = 1 := by linarith
    rw [if_neg (by linarith), hs, if_neg (by linarith), hsum]
    field_simp
    linarith
  · rw [if_neg (by linarith), hs, if_pos (by linarith)]
    field_simp
    ring

set_option maxHeartbeats 1000000

lemma roundtrip_core (R G B : ℚ) (hR0 : 0 ≤ R) (hR1 : R ≤ 1) (hG0 : 0 ≤ G) (hG1 : G ≤ 1)
    (hB0 : 0 ≤ B) (hB1 : B ≤ 1) :
    hslToRgb (rgbToHslCore R G B).1 (rgbToHslCore R G B).2.1 (rgbToHslCore R G B).2.2
      = (round (R * 255), round (G * 255), round (B * 255)) := by
  rcases lt_or_le G B with hGB | hBG
  · -- the source test `g1 < b1` holds
    rcases le_or_lt B R with hBR | hRB
    · -- G < B ≤ R : red is the maximum channel, green the minimum
      have hGR : G < R := lt_of_lt_of_le hGB hBR
      have hhsl : rgbToHslCore R G B =
          (((G - B) / (R - G) + 6) / 6,
           if (R + G) / 2 > 1/2 then (R - G) / (2 - R - G) else (R - G) / (R + G),
           (R + G) / 2) := by
        simp only [rgbToHslCore]
        rw [max_eq_right (le_of_lt hGB), max_eq_left hBR, min_eq_left (le_of_lt hGB),
            min_eq_right (le_of_lt hGR), if_neg (ne_of_gt hGR), if_pos rfl, if_pos hGB]
      rw [hhsl]
      set S := (if (R + G) / 2 > 1/2 then (R - G) / (2 - R - G) else (R - G) / (R + G) : ℚ)
        with hS
      have hSpos : 0 < S := by
        rw [hS]
        split_ifs with hl
        · exact div_pos (by linarith) (by linarith)
        · exact div_pos (by linarith) (by linarith)
      rw [hslToRgb_chromatic _ S _ (ne_of_gt hSpos)]
      have hq : qOf S ((R + G) / 2) = R := qOf_eq_max R G S hG0 hGR hR1 hS
      rw [hq, show 2 * ((R + G) / 2) - R = G from by ring]
      set u := (G - B) / (R - G) with hu
      have hdpos : (0:ℚ) < R - G := by linarith
      have hu0 : u < 0 := div_neg_of_neg_of_pos (by linarith) hdpos
      have hu1 : -1 ≤ u := by
        rw [hu, le_div_iff₀ hdpos]
        linarith
      simp only [Prod.mk.injEq]
      refine ⟨?_, ?_, ?_⟩
      · rw [hue2rgb_wrap_down_q G R ((u + 6) / 6 + 1/3) (by linarith) (by linarith)]
      · rw [hue2rgb_of_ge_two_thirds G R ((u + 6) / 6) (by linarith) (by linarith)]
      · rw [hue2rgb_of_lt_two_thirds G R ((u + 6) / 6 - 1/3) (by linarith) (by linarith)]
        have hval : G + (R - G) * (2/3 - ((u + 6) / 6 - 1/3)) * 6 = B := by
          rw [hu]
          field_simp
          ring
        rw [hval]
    · -- R < B : blue is the maximum channel
      rcases le_or_lt G R with hGR | hRG
      · -- G ≤ R < B : green is the minimum
        have hGB2 : G < B := lt_of_le_of_lt hGR hRB
        have hhsl : rgbToHslCore R G B =
            (((R - G) / (B - G) + 4) / 6,
             if (B + G) / 2 > 1/2 then (B - G) / (2 - B - G) else (B - G) / (B + G),
             (B + G) / 2) := by
          simp only [rgbToHslCore]
          rw [max_eq_right (le_of_lt hGB), max_eq_right (le_of_lt hRB),
              min_eq_left (le_of_lt hGB), min_eq_right hGR, if_neg (ne_of_gt hGB2),
              if_neg (ne_of_gt hRB), if_neg (ne_of_gt hGB2)]
        rw [hhsl]
        set S := (if (B + G) / 2 > 1/2 then (B - G) / (2 - B - G) else (B - G) / (B + G) : ℚ)
          with hS
        have hSpos : 0 < S := by
          rw [hS]
          split_ifs with hl
          · exact div_pos (by linarith) (by linarith)
          · exact div_pos (by linarith) (by linarith)
        rw [hslToRgb_chromatic _ S _ (ne_of_gt hSpos)]
        have hq : qOf S ((B + G) / 2) = B := qOf_eq_max B G S hG0 hGB2 hB1 hS
        rw [hq, show 2 * ((B + G) / 2) - B = G from by ring]
        set u := (R - G) / (B - G) with hu
        have hdpos : (0:ℚ) < B - G := by linarith
        have hu0 : 0 ≤ u := div_nonneg (by linarith) (le_of_lt hdpos)
        have hu1 : u < 1 := by
          rw [hu, div_lt_one hdpos]
          linarith
        simp only [Prod.mk.injEq]
        refine ⟨?_, ?_, ?_⟩
        · rcases eq_or_lt_of_le hu0 with hue | hul
          · rw [hue2rgb_of_ge_two_thirds G B ((u + 4) / 6 + 1/3) (by linarith) (by linarith)]
            have hRG2 : G = R := by
              have h0 := hue.symm
              rw [hu] at h0
              rcases div_eq_zero_iff.mp h0 with h | h
              · linarith
              · exact absurd h (ne_of_gt hdpos)
            rw [hRG2]
          · rw [hue2rgb_wrap_down_seg1 G B ((u + 4) / 6 + 1/3) (by linarith) (by linarith)]
            have hval : G + (B - G) * 6 * ((u + 4) / 6 + 1/3 - 1) = R := by
              rw [hu]
              field_simp
              ring
            rw [hval]
        · rw [hue2rgb_of_ge_two_thirds G B ((u + 4) / 6) (by linarith) (by linarith)]
        · rw [hue2rgb_of_lt_half G B ((u + 4) / 6 - 1/3) (by linarith) (by linarith)]
      · -- R < G < B : red is the minimum
        have hRB2 : R < B := lt_trans hRG hGB
        have hhsl : rgbToHslCore R G B =
            (((R - G) / (B - R) + 4) / 6,
             if (B + R) / 2 > 1/2 then (B - R) / (2 - B - R) else (B - R) / (B + R),
             (B + R) / 2) := by
          simp only [rgbToHslCore]
          rw [max_eq_right (le_of_lt hGB), max_eq_right (le_of_lt hRB2),
              min_eq_left (le_of_lt hGB), min_eq_left (le_of_lt hRG),
              if_neg (ne_of_gt hRB2), if_neg (ne_of_gt hRB2), if_neg (ne_of_gt hGB)]
        rw [hhsl]
        set S := (if (B + R) / 2 > 1/2 then (B - R) / (2 - B - R) else (B - R) / (B + R) : ℚ)
          with hS
        have hSpos : 0 < S := by
          rw [hS]
          split_ifs with hl
          · exact div_pos (by linarith) (by linarith)
          · exact div_pos (by linarith) (by linarith)
        rw [hslToRgb_chromatic _ S _ (ne_of_gt hSpos)]
        have hq : qOf S ((B + R) / 2) = B := qOf_eq_max B R S hR0 hRB2 hB1 hS
        rw [hq, show 2 * ((B + R) / 2) - B = R from by ring]
        set u := (R - G) / (B - R) with hu
        have hdpos : (0:ℚ) < B - R := by linarith
        have hu0 : u < 0 := div_neg_of_neg_of_pos (by linarith) hdpos
        have hu1 : -1 < u := by
          rw [hu, lt_div_iff₀ hdpos]
          linarith
        simp only [Prod.mk.injEq]
        refine ⟨?_, ?_, ?_⟩
        · rw [hue2rgb_of_ge_two_thirds R B ((u + 4) / 6 + 1/3) (by linarith) (by linarith)]
        · rw [hue2rgb_of_lt_two_thirds R B ((u + 4) / 6) (by linarith) (by linarith)]
          have hval : R + (B - R) * (2/3 - (u + 4) / 6) * 6 = G := by
            rw [hu]
            field_simp
            ring
          rw [hval]
        · rw [hue2rgb_of_lt_half R B ((u + 4) / 6 - 1/3) (by linarith) (by linarith)]
  · -- the source test `g1 < b1` fails : B ≤ G
    rcases le_or_lt G R with hGR | hRG
    · -- B ≤ G ≤ R : red is the maximum, blue the minimum
      have hBR : B ≤ R := le_trans hBG hGR
      by_cases hRB : R = B
      · -- achromatic : R = G = B
        have hGR2 : G = R := le_antisymm hGR (by rw [hRB]; exact hBG)
        have hhsl : rgbToHslCore R G B = (0, 0, (R + B) / 2) := by
          simp only [rgbToHslCore]
          rw [max_eq_left hBG, max_eq_left hGR, min_eq_right hBG, min_eq_right hBR,
              if_pos hRB]
        rw [hhsl, hslToRgb_achromatic]
        rw [show (R + B) / 2 = R from by rw [hRB]; ring, hGR2, ← hRB]
      · -- chromatic, B < R
        have hBRlt : B < R := lt_of_le_of_ne hBR (fun he => hRB he.symm)
        have hhsl : rgbToHslCore R G B =
            ((G - B) / (R - B) / 6,
             if (R + B) / 2 > 1/2 then (R - B) / (2 - R - B) else (R - B) / (R + B),
             (R + B) / 2) := by
          simp only [rgbToHslCore]
          rw [max_eq_left hBG, max_eq_left hGR, min_eq_right hBG, min_eq_right hBR,
              if_neg hRB, if_pos rfl, if_neg (not_lt.mpr hBG), add_zero]
        rw [hhsl]
        set S := (if (R + B) / 2 > 1/2 then (R - B) / (2 - R - B) else (R - B) / (R + B) : ℚ)
          with hS
        have hSpos : 0 < S := by
          rw [hS]
          split_ifs with hl
          · exact div_pos (by linarith) (by linarith)
          · exact div_pos (by linarith) (by linarith)
        rw [hslToRgb_chromatic _ S _ (ne_of_gt hSpos)]
        have hq : qOf S ((R + B) / 2) = R := qOf_eq_max R B S hB0 hBRlt hR1 hS
        rw [hq, show 2 * ((R + B) / 2) - R = B from by ring]
        set u := (G - B) / (R - B) with hu
        have hdpos : (0:ℚ) < R - B := by linarith
        have hu0 : 0 ≤ u := div_nonneg (by linarith) (le_of_lt hdpos)
        have hu1 : u ≤ 1 := by
          rw [hu, div_le_one hdpos]
          linarith
        simp only [Prod.mk.injEq]
        refine ⟨?_, ?_, ?_⟩
        · rcases lt_or_eq_of_le hu1 with hul | hue
          · rw [hue2rgb_of_lt_half B R (u / 6 + 1/3) (by linarith) (by linarith)]
          · rw [hue2rgb_of_lt_two_thirds B R (u / 6 + 1/3) (by rw [hue]; norm_num)
                (by rw [hue]; norm_num)]
            have hval : B + (R - B) * (2/3 - (u / 6 + 1/3)) * 6 = R := by
              rw [hue]
              ring
            rw [hval]
        · rcases lt_or_eq_of_le hu1 with hul | hue
          · rw [hue2rgb_of_lt_sixth B R (u / 6) (by linarith) (by linarith)]
            have hval : B + (R - B) * 6 * (u / 6) = G := by
              rw [hu]
              field_simp
            rw [hval]
          · have hGReq : G = R := by
              rw [hu] at hue
              rw [div_eq_one_iff_eq (ne_of_gt hdpos)] at hue
              linarith
            rw [hue2rgb_of_lt_half B R (u / 6) (by rw [hue]) (by rw [hue]; norm_num)]
            rw [hGReq]
        · rw [hue2rgb_wrap_up_p B R (u / 6 - 1/3) (by linarith) (by linarith)]
    · -- R < G : green is the maximum
      rcases le_or_lt R B with hRB | hBR2
      · -- R ≤ B ≤ G : red is the minimum
        have hhsl : rgbToHslCore R G B =
            (((B - R) / (G - R) + 2) / 6,
             if (G + R) / 2 > 1/2 then (G - R) / (2 - G - R) else (G - R) / (G + R),
             (G + R) / 2) := by
          simp only [rgbToHslCore]
          rw [max_eq_left hBG, max_eq_right (le_of_lt hRG), min_eq_right hBG,
              min_eq_left hRB, if_neg (ne_of_gt hRG), if_neg (ne_of_gt hRG), if_pos rfl]
        rw [hhsl]
        set S := (if (G + R) / 2 > 1/2 then (G - R) / (2 - G - R) else (G - R) / (G + R) : ℚ)
          with hS
        have hSpos : 0 < S := by
          rw [hS]
          split_ifs with hl
          · exact div_pos (by linarith) (by linarith)
          · exact div_pos (by linarith) (by linarith)
        rw [hslToRgb_chromatic _ S _ (ne_of_gt hSpos)]
        have hq : qOf S ((G + R) / 2) = G := qOf_eq_max G R S hR0 hRG hG1 hS
        rw [hq, show 2 * ((G + R) / 2) - G = R from by ring]
        set u := (B - R) / (G - R) with hu
        have hdpos : (0:ℚ) < G - R := by linarith
        have hu0 : 0 ≤ u := div_nonneg (by linarith) (le_of_lt hdpos)
        have hu1 : u ≤ 1 := by
          rw [hu, div_le_one hdpos]
          linarith
        simp only [Prod.mk.injEq]
        refine ⟨?_, ?_, ?_⟩
        · rw [hue2rgb_of_ge_two_thirds R G ((u + 2) / 6 + 1/3) (by linarith) (by linarith)]
        · rcases lt_or_eq_of_le hu1 with hul | hue
          · rw [hue2rgb_of_lt_half R G ((u + 2) / 6) (by linarith) (by linarith)]
          · rw [hue2rgb_of_lt_two_thirds R G ((u + 2) / 6) (by rw [hue]; norm_num)
                (by rw [hue]; norm_num)]
            have hval : R + (G - R) * (2/3 - (u + 2) / 6) * 6 = G := by
              rw [hue]
              ring
            rw [hval]
        · rcases lt_or_eq_of_le hu1 with hul | hue
          · rw [hue2rgb_of_lt_sixth R G ((u + 2) / 6 - 1/3) (by linarith) (by linarith)]
            have hval : R + (G - R) * 6 * ((u + 2) / 6 - 1/3) = B := by
              rw [hu]
              field_simp
              ring
            rw [hval]
          · have hBGeq : G = B := by
              rw [hu] at hue
              rw [div_eq_one_iff_eq (ne_of_gt hdpos)] at hue
              linarith
            rw [hue2rgb_of_lt_half R G ((u + 2) / 6 - 1/3) (by rw [hue]; norm_num)
                (by rw [hue]; norm_num)]
            rw [hBGeq]
      · -- B < R < G : blue is the minimum
        have hBGlt : B < G := lt_trans hBR2 hRG
        have hhsl : rgbToHslCore R G B =
            (((B - R) / (G - B) + 2) / 6,
             if (G + B) / 2 > 1/2 then (G - B) / (2 - G - B) else (G - B) / (G + B),
             (G + B) / 2) := by
          simp only [rgbToHslCore]
          rw [max_eq_left hBG, max_eq_right (le_of_lt hRG), min_eq_right hBG,
              min_eq_right (le_of_lt hBR2), if_neg (ne_of_gt hBGlt), if_neg (ne_of_gt hRG),
              if_pos rfl]
        rw [hhsl]
        set S := (if (G + B) / 2 > 1/2 then (G - B) / (2 - G - B) else (G - B) / (G + B) : ℚ)
          with hS
        have hSpos : 0 < S := by
          rw [hS]
          split_ifs with hl
          · exact div_pos (by linarith) (by linarith)
          · exact div_pos (by linarith) (by linarith)
        rw [hslToRgb_chromatic _ S _ (ne_of_gt hSpos)]
        have hq : qOf S ((G + B) / 2) = G := qOf_eq_max G B S hB0 hBGlt hG1 hS
        rw [hq, show 2 * ((G + B) / 2) - G = B from by ring]
        set u := (B - R) / (G - B) with hu
        have hdpos : (0:ℚ) < G - B := by linarith
        have hu0 : u < 0 := div_neg_of_neg_of_pos (by linarith) hdpos
        have hu1 : -1 < u := by
          rw [hu, lt_div_iff₀ hdpos]
          linarith
        simp only [Prod.mk.injEq]
        refine ⟨?_, ?_, ?_⟩
        · rw [hue2rgb_of_lt_two_thirds B G ((u + 2) / 6 + 1/3) (by linarith) (by linarith)]
          have hval : B + (G - B) * (2/3 - ((u + 2) / 6 + 1/3)) * 6 = R := by
            rw [hu]
            field_simp
            ring
          rw [hval]
        · rw [hue2rgb_of_lt_half B G ((u + 2) / 6) (by linarith) (by linarith)]
        · rw [hue2rgb_wrap_up_p B G ((u + 2) / 6 - 1/3) (by linarith) (by linarith)]

lemma roundtrip_exact (r g b : ℕ) (hr : r ≤ 255) (hg : g ≤ 255) (hb : b ≤ 255) :
    hslToRgb (rgbToHsl r g b).1 (rgbToHsl r g b).2.1 (rgbToHsl r g b).2.2
      = ((r : ℤ), (g : ℤ), (b : ℤ)) := by
  have h255 : (0:ℚ) < 255 := by norm_num
  have h := roundtrip_core ((r:ℚ) / 255) ((g:ℚ) / 255) ((b:ℚ) / 255)
    (by positivity) (by rw [div_le_one h255]; exact_mod_cast hr)
    (by positivity) (by rw [div_le_one h255]; exact_mod_cast hg)
    (by positivity) (by rw [div_le_one h255]; exact_mod_cast hb)
  simp only [rgbToHsl]
  rw [h, div_mul_cancel₀ _ (ne_of_gt h255), div_mul_cancel₀ _ (ne_of_gt h255),
      div_mul_cancel₀ _ (ne_of_gt h255)]
  norm_num


/-- C4: for all integers r, g, b in [0,255], applying `hslToRgb` to the
result of `rgbToHsl(r,g,b)` reproduces `(r,g,b)` within plus or minus 1 per
channel (over exact rational arithmetic the round trip is in fact exact,
proved in `roundtrip_exact`). -/
theorem claim_C4_hsl_roundtrip (r g b : ℕ) (hr : r ≤ 255) (hg : g ≤ 255) (hb : b ≤ 255) :
    |(hslToRgb (rgbToHsl r g b).1 (rgbToHsl r g b).2.1 (rgbToHsl r g b).2.2).1 - (r : ℤ)| ≤ 1 ∧
    |(hslToRgb (rgbToHsl r g b).1 (rgbToHsl r g b).2.1 (rgbToHsl r g b).2.2).2.1 - (g : ℤ)| ≤ 1 ∧
    |(hslToRgb (rgbToHsl r g b).1 (rgbToHsl r g b).2.1 (rgbToHsl r g b).2.2).2.2 - (b : ℤ)| ≤ 1 := by
  rw [roundtrip_exact r g b hr hg hb]
  norm_num

/-- Witness for C4 at the concrete triple (12, 200, 53). -/
theorem claim_C4_hsl_roundtrip_witness :
    |(hslToRgb (rgbToHsl 12 200 53).1 (rgbToHsl 12 200 53).2.1 (rgbToHsl 12 200 53).2.2).1
        - (12 : ℤ)| ≤ 1 ∧
    |(hslToRgb (rgbToHsl 12 200 53).1 (rgbToHsl 12 200 53).2.1 (rgbToHsl 12 200 53).2.2).2.1
        - (200 : ℤ)| ≤ 1 ∧
    |(hslToRgb (rgbToHsl 12 200 53).1 (rgbToHsl 12 200 53).2.1 (rgbToHsl 12 200 53).2.2).2.2
        - (53 : ℤ)| ≤ 1 := by
  have h := claim_C4_hsl_roundtrip 12 200 53 (by norm_num) (by norm_num) (by norm_num)
  exact_mod_cast h

/-! ### Claims C6, C7, C8 : pointer and keyboard transitions -/

lemma jsMod1_bounds (x : ℚ) (hx : 0 ≤ x) : 0 ≤ jsMod1 x ∧ jsMod1 x < 1 := by
  unfold jsMod1
  rw [if_pos hx]
  exact ⟨Int.fract_nonneg x, Int.fract_lt_one x⟩

/-- C6: the wheel pointer update sets hue to `(atan2(dy,dx)/(2π) + 1) % 1`,
a value in `[0,1)`, and saturation to `min(distance, radius)/radius`, so a
distance beyond the radius yields saturation exactly 1 and never above 1. -/
theorem claim_C6_wheel_hue_sat (radius dist angle2pi : ℚ) (c : ColorState)
    (hrad : 0 < radius) (hdist : 0 ≤ dist)
    (ha1 : -(1/2) < angle2pi) (ha2 : angle2pi ≤ 1/2) :
    (handleWheelMove radius dist angle2pi c).h = jsMod1 (angle2pi + 1) ∧
    0 ≤ (handleWheelMove radius dist angle2pi c).h ∧
    (handleWheelMove radius dist angle2pi c).h < 1 ∧
    (handleWheelMove radius dist angle2pi c).s = min dist radius / radius ∧
    (radius < dist → (handleWheelMove radius dist angle2pi c).s = 1) ∧
    (handleWheelMove radius dist angle2pi c).s ≤ 1 := by
  have hmin : (if radius < dist then radius else dist) = min dist radius := by
    rcases le_or_lt dist radius with h | h
    · rw [if_neg (not_lt.mpr h), min_eq_left h]
    · rw [if_pos h, min_eq_right (le_of_lt h)]
  have hfr := jsMod1_bounds (angle2pi + 1) (by linarith)
  refine ⟨rfl, hfr.1, hfr.2, ?_, ?_, ?_⟩
  · show (if radius < dist then radius else dist) / radius = min dist radius / radius
    rw [hmin]
  · intro h
    show (if radius < dist then radius else dist) / radius = 1
    rw [if_pos h, div_self (ne_of_gt hrad)]
  · show (if radius < dist then radius else dist) / radius ≤ 1
    rw [hmin, div_le_one hrad]
    exact min_le_right dist radius

/-- Witness for C6 at radius 2 with a pointer at distance 3 (outside the
wheel): saturation is exactly 1. -/
theorem claim_C6_wheel_hue_sat_witness :
    (handleWheelMove 2 3 (1/4) ⟨0, 1, 1/2, 1⟩).h = jsMod1 ((1:ℚ)/4 + 1) ∧
    0 ≤ (handleWheelMove 2 3 (1/4) ⟨0, 1, 1/2, 1⟩).h ∧
    (handleWheelMove 2 3 (1/4) ⟨0, 1, 1/2, 1⟩).h < 1 ∧
    (handleWheelMove 2 3 (1/4) ⟨0, 1, 1/2, 1⟩).s = 1 := by
  have h := claim_C6_wheel_hue_sat 2 3 (1/4) ⟨0, 1, 1/2, 1⟩ (by norm_num) (by norm_num)
    (by norm_num) (by norm_num)
  exact ⟨h.1, h.2.1, h.2.2.1, h.2.2.2.2.1 (by norm_num)⟩

/-- C7: if lightness is exactly 0 or exactly 1 when hue/saturation are set
through the wheel pointer, lightness is reset to 0.5; any other lightness is
left unchanged by the wheel update. -/
theorem claim_C7_wheel_lightness_reset (radius dist angle2pi : ℚ) (c : ColorState) :
    ((c.l = 0 ∨ c.l = 1) → (handleWheelMove radius dist angle2pi c).l = 1/2) ∧
    (c.l ≠ 0 → c.l ≠ 1 → (handleWheelMove radius dist angle2pi c).l = c.l) := by
  constructor
  · intro h
    show (if c.l = 1 ∨ c.l = 0 then 1/2 else c.l) = 1/2
    rw [if_pos (h.elim Or.inr Or.inl)]
  · intro h0 h1
    show (if c.l = 1 ∨ c.l = 0 then 1/2 else c.l) = c.l
    rw [if_neg (fun hc => hc.elim h1 h0)]

/-- Witness for C7, including the spec's example: from `l = 1` a wheel event
choosing `h = 0.3`, `s = 0.4` yields the state `(0.3, 0.4, 0.5, 1)`. -/
theorem claim_C7_wheel_lightness_reset_witness :
    (handleWheelMove 1 (2/5) (3/10) ⟨0, 1, 1, 1⟩).l = 1/2 ∧
    (handleWheelMove 1 (2/5) (3/10) ⟨0, 1, 3/4, 1⟩).l = 3/4 ∧
    handleWheelMove 1 (2/5) (3/10) ⟨0, 1, 1, 1⟩ = ⟨3/10, 2/5, 1/2, 1⟩ := by
  refine ⟨(claim_C7_wheel_lightness_reset 1 (2/5) (3/10) ⟨0, 1, 1, 1⟩).1 (Or.inr rfl),
    (claim_C7_wheel_lightness_reset 1 (2/5) (3/10) ⟨0, 1, 3/4, 1⟩).2 (by norm_num) (by norm_num),
    ?_⟩
  norm_num [handleWheelMove, jsMod1, Int.fract, ColorState.mk.injEq]

/-- C8: arrow keys step hue, saturation or lightness by 0.01, or 0.05 with
shift; hue wraps modulo 1 into `[0,1)` in both directions; saturation and
lightness clamp into `[0,1]` with no wraparound. -/
theorem claim_C8_keyboard_step (c : ColorState) (shift : Bool)
    (hh0 : 0 ≤ c.h) (hh1 : c.h < 1) (hs0 : 0 ≤ c.s) (hs1 : c.s ≤ 1)
    (hl0 : 0 ≤ c.l) (hl1 : c.l ≤ 1) :
    (wheelKeydown Key.arrowLeft shift c).h
        = jsMod1 (c.h - (if shift then (5:ℚ)/100 else 1/100) + 1) ∧
    (wheelKeydown Key.arrowRight shift c).h
        = jsMod1 (c.h + (if shift then (5:ℚ)/100 else 1/100)) ∧
    (0 ≤ (wheelKeydown Key.arrowLeft shift c).h ∧ (wheelKeydown Key.arrowLeft shift c).h < 1) ∧
    (0 ≤ (wheelKeydown Key.arrowRight shift c).h ∧ (wheelKeydown Key.arrowRight shift c).h < 1) ∧
    (wheelKeydown Key.arrowUp shift c).s = min 1 (c.s + (if shift then (5:ℚ)/100 else 1/100)) ∧
    (wheelKeydown Key.arrowDown shift c).s = max 0 (c.s - (if shift then (5:ℚ)/100 else 1/100)) ∧
    (0 ≤ (wheelKeydown Key.arrowUp shift c).s ∧ (wheelKeydown Key.arrowUp shift c).s ≤ 1) ∧
    (0 ≤ (wheelKeydown Key.arrowDown shift c).s ∧ (wheelKeydown Key.arrowDown shift c).s ≤ 1) ∧
    (lightnessKeydown Key.arrowLeft shift c).l
        = max 0 (c.l - (if shift then (5:ℚ)/100 else 1/100)) ∧
    (lightnessKeydown Key.arrowRight shift c).l
        = min 1 (c.l + (if shift then (5:ℚ)/100 else 1/100)) ∧
    (0 ≤ (lightnessKeydown Key.arrowLeft shift c).l ∧
      (lightnessKeydown Key.arrowLeft shift c).l ≤ 1) ∧
    (0 ≤ (lightnessKeydown Key.arrowRight shift c).l ∧
      (lightnessKeydown Key.arrowRight shift c).l ≤ 1) := by
  have hstep0 : (0:ℚ) < if shift then (5:ℚ)/100 else 1/100 := by
    cases shift <;> norm_num
  have hstep1 : (if shift then (5:ℚ)/100 else 1/100) ≤ 5/100 := by
    cases shift <;> norm_num
  have hL := jsMod1_bounds (c.h - (if shift then (5:ℚ)/100 else 1/100) + 1) (by linarith)
  have hR := jsMod1_bounds (c.h + (if shift then (5:ℚ)/100 else 1/100)) (by linarith)
  refine ⟨rfl, rfl, hL, hR, rfl, rfl, ?_, ?_, rfl, rfl, ?_, ?_⟩
  · exact ⟨le_min (by norm_num) (by linarith), min_le_left _ _⟩
  · exact ⟨le_max_left _ _, max_le (by norm_num) (by linarith)⟩
  · exact ⟨le_max_left _ _, max_le (by norm_num) (by linarith)⟩
  · exact ⟨le_min (by norm_num) (by linarith), min_le_left _ _⟩

/-- Witness for C8, including the spec's wraparound example:
`h = 0.0` stepped left by 0.01 gives `h = 0.99`, and an up-step near full
saturation clamps at exactly 1. -/
theorem claim_C8_keyboard_step_witness :
    (wheelKeydown Key.arrowLeft false ⟨0, 1/2, 1/2, 1⟩).h = 99/100 ∧
    (wheelKeydown Key.arrowUp true ⟨0, 98/100, 1/2, 1⟩).s = 1 := by
  have h1 := claim_C8_keyboard_step ⟨0, 1/2, 1/2, 1⟩ false (by norm_num) (by norm_num)
    (by norm_num) (by norm_num) (by norm_num) (by norm_num)
  have h2 := claim_C8_keyboard_step ⟨0, 98/100, 1/2, 1⟩ true (by norm_num) (by norm_num)
    (by norm_num) (by norm_num) (by norm_num) (by norm_num)
  constructor
  · rw [h1.1]
    norm_num [jsMod1, Int.fract]
  · rw [h2.2.2.2.2.1]
    norm_num [min_def]

/-! ### Claims C9, C10 : textual encodings -/

lemma toString16_of_lt (n : ℕ) (h : n < 16) : toString16 n = [hexDigitChar n] := by
  rw [toString16, if_pos h]

lemma toString16_of_ge (n : ℕ) (h16 : 16 ≤ n) (h : n < 256) :
    toString16 n = [hexDigitChar (n / 16), hexDigitChar (n % 16)] := by
  rw [toString16, if_neg (by omega), toString16_of_lt (n / 16) (by omega)]
  rfl

lemma toHex_pad (n : ℕ) (h : n ≤ 255) :
    ('0' :: toString16 n).drop (('0' :: toString16 n).length - 2)
      = [hexDigitChar (n / 16), hexDigitChar (n % 16)] := by
  rcases lt_or_le n 16 with h16 | h16
  · rw [toString16_of_lt n h16, Nat.div_eq_of_lt h16, Nat.mod_eq_of_lt h16,
      show hexDigitChar 0 = '0' from rfl]
    simp
  · rw [toString16_of_ge n h16 (by omega)]
    simp

lemma toHex_natCast (n : ℕ) (h : n ≤ 255) :
    toHex (n : ℚ) = [hexDigitChar (n / 16), hexDigitChar (n % 16)] := by
  simp only [toHex, jsIntToString16]
  rw [round_natCast, if_neg (not_lt.mpr (Int.natCast_nonneg n)), Int.toNat_natCast]
  exact toHex_pad n h

lemma toHex_of_mem (c : ℚ) (h0 : 0 ≤ c) (h1 : c ≤ 255) :
    toHex c = [hexDigitChar ((round c).toNat / 16), hexDigitChar ((round c).toNat % 16)] := by
  have hr0 : (0:ℤ) ≤ round c := by
    rw [round_eq]
    exact Int.floor_nonneg.mpr (by linarith)
  have hr1 : round c < 256 := by
    rw [round_eq]
    exact Int.floor_lt.mpr (by push_cast; linarith)
  simp only [toHex, jsIntToString16]
  rw [if_neg (not_lt.mpr hr0)]
  exact toHex_pad (round c).toNat (by omega)

/-- C9: `rgbToHex` produces an uppercase `#RRGGBB` string of 6 hex digits
when the alpha argument equals 1 or is undefined, and appends exactly two
more hex digits encoding `round(a*255)` (giving `#RRGGBBAA`) whenever alpha
is defined and not equal to 1. -/
theorem claim_C9_rgbToHex (r g b : ℕ) (a : ℚ) (hr : r ≤ 255) (hg : g ≤ 255) (hb : b ≤ 255)
    (ha0 : 0 ≤ a) (ha1 : a ≤ 1) :
    rgbToHex r g b (some 1) = String.mk ('#' :: (hexPairU r ++ hexPairU g ++ hexPairU b)) ∧
    rgbToHex r g b none = String.mk ('#' :: (hexPairU r ++ hexPairU g ++ hexPairU b)) ∧
    (rgbToHex r g b (some 1)).length = 7 ∧
    (a ≠ 1 → rgbToHex r g b (some a)
        = String.mk ('#' :: (hexPairU r ++ hexPairU g ++ hexPairU b
            ++ hexPairU (round (a * 255)).toNat)) ∧
      (rgbToHex r g b (some a)).length = 9) := by
  have e1 : rgbToHex r g b (some 1)
      = String.mk ('#' :: (hexPairU r ++ hexPairU g ++ hexPairU b)) := by
    simp only [rgbToHex]
    rw [if_neg (fun hc => hc rfl)]
    rw [toHex_natCast r hr, toHex_natCast g hg, toHex_natCast b hb]
    simp [hexPairU, show Char.toUpper '#' = '#' from rfl]
  have e2 : rgbToHex r g b none
      = String.mk ('#' :: (hexPairU r ++ hexPairU g ++ hexPairU b)) := by
    simp only [rgbToHex]
    rw [toHex_natCast r hr, toHex_natCast g hg, toHex_natCast b hb]
    simp [hexPairU, show Char.toUpper '#' = '#' from rfl]
  refine ⟨e1, e2, ?_, ?_⟩
  · rw [e1]
    simp [String.length, hexPairU]
  · intro ha
    have e3 : rgbToHex r g b (some a)
        = String.mk ('#' :: (hexPairU r ++ hexPairU g ++ hexPairU b
            ++ hexPairU (round (a * 255)).toNat)) := by
      simp only [rgbToHex]
      rw [if_pos ha]
      rw [toHex_natCast r hr, toHex_natCast g hg, toHex_natCast b hb,
        toHex_of_mem (a * 255) (by positivity) (by linarith)]
      simp [hexPairU, show Char.toUpper '#' = '#' from rfl]
    refine ⟨e3, ?_⟩
    rw [e3]
    simp [String.length, hexPairU]

/-- Witness for C9: the spec's own examples, `rgbToHex(255,0,0,1)` is
`"#FF0000"` and `rgbToHex(255,0,0,0.5)` is the 8-digit form with the alpha
byte `round(0.5*255) = 128 = 0x80`. -/
theorem claim_C9_rgbToHex_witness :
    rgbToHex 255 0 0 (some 1) = "#FF0000" ∧
    rgbToHex 255 0 0 (some (1/2)) = "#FF000080" := by
  have h := claim_C9_rgbToHex 255 0 0 (1/2) (by norm_num) (by norm_num) (by norm_num)
    (by norm_num) (by norm_num)
  push_cast at h
  constructor
  · rw [h.1]
    decide
  · rw [(h.2.2.2 (by norm_num)).1]
    have h128 : (round ((1:ℚ)/2 * 255)).toNat = 128 := by
      have hr : round ((1:ℚ)/2 * 255) = 128 := by norm_num [round_eq]
      rw [hr]
      rfl
    rw [h128]
    decide

lemma hexToRgb_fallback (s : String) (h : wellFormedHex s = false) :
    hexToRgb s = ⟨0, 0, 0, 1⟩ := by
  simp only [hexToRgb]
  split_ifs with h1 h2
  · have ht : wellFormedHex s = true := by simp [wellFormedHex, h1.1, h1.2]
    rw [ht] at h
    exact Bool.noConfusion h
  · have ht : wellFormedHex s = true := by simp [wellFormedHex, h2.1, h2.2]
    rw [ht] at h
    exact Bool.noConfusion h
  · rfl

/-- C10: `parseColor` never fails: every input that is neither an
`rgb`-prefixed string with at least 3 numeric substrings nor a well-formed
6- or 8-digit hex string yields opaque black `[0,0,0,1]`, and malformed
`#`-prefixed input yields the `hexToRgb` fallback `{r:0,g:0,b:0,a:1}`. -/
theorem claim_C10_parse_fallback (s : String)
    (h1 : ¬(startsWithRgb s.data = true ∧ 3 ≤ (numRuns s.data).length))
    (h2 : wellFormedHex s = false) :
    parseColor s = (some 0, some 0, some 0, some 1) ∧ hexToRgb s = ⟨0, 0, 0, 1⟩ := by
  have hfb := hexToRgb_fallback s h2
  refine ⟨?_, hfb⟩
  simp only [parseColor]
  rw [if_neg h1]
  by_cases hh : startsWithHash s.data = true
  · rw [if_pos hh, hfb]
  · rw [if_neg hh]

/-- Witness for C10: the spec's example `parseColor("not-a-color")`, plus a
malformed `#`-prefixed input. -/
theorem claim_C10_parse_fallback_witness :
    (parseColor "not-a-color" = (some 0, some 0, some 0, some 1) ∧
      hexToRgb "not-a-color" = ⟨0, 0, 0, 1⟩) ∧
    parseColor "#12345" = (some 0, some 0, some 0, some 1) := by
  refine ⟨claim_C10_parse_fallback "not-a-color" ?_ (by decide),
    (claim_C10_parse_fallback "#12345" ?_ (by decide)).1⟩
  · intro hc
    exact absurd hc.1 (by decide)
  · intro hc
    exact absurd hc.1 (by decide)

/-! ### Claims C1, C2, C3, C5 : the session state machine -/

lemma rgbToHslCore_bounds (R G B h s l : ℚ) (hR0 : 0 ≤ R) (hR1 : R ≤ 1) (hG0 : 0 ≤ G)
    (hG1 : G ≤ 1) (hB0 : 0 ≤ B) (hB1 : B ≤ 1)
    (heq : rgbToHslCore R G B = (h, s, l)) :
    0 ≤ h ∧ h ≤ 1 ∧ 0 ≤ s ∧ s ≤ 1 ∧ 0 ≤ l ∧ l ≤ 1 := by
  have hM1 : max R (max G B) ≤ 1 := max_le hR1 (max_le hG1 hB1)
  have hm0 : 0 ≤ min R (min G B) := le_min hR0 (le_min hG0 hB0)
  have hRle : R ≤ max R (max G B) := le_max_left _ _
  have hGle : G ≤ max R (max G B) := le_trans (le_max_left _ _) (le_max_right _ _)
  have hBle : B ≤ max R (max G B) := le_trans (le_max_right _ _) (le_max_right _ _)
  have hRge : min R (min G B) ≤ R := min_le_left _ _
  have hGge : min R (min G B) ≤ G := le_trans (min_le_right _ _) (min_le_left _ _)
  have hBge : min R (min G B) ≤ B := le_trans (min_le_right _ _) (min_le_right _ _)
  simp only [rgbToHslCore] at heq
  set M := max R (max G B) with hMdef
  set m := min R (min G B) with hmdef
  split_ifs at heq with hac
  · rw [Prod.mk.injEq, Prod.mk.injEq] at heq
    obtain ⟨rfl, rfl, rfl⟩ := heq
    exact ⟨le_refl 0, by norm_num, le_refl 0, by norm_num, by linarith, by linarith⟩
  all_goals rw [Prod.mk.injEq, Prod.mk.injEq] at heq
  all_goals obtain ⟨rfl, rfl, rfl⟩ := heq
  all_goals have hmM : m < M := lt_of_le_of_ne (le_trans hRge hRle) (fun he => hac he.symm)
  all_goals have hd : (0:ℚ) < M - m := by linarith
  all_goals have hGBu : -1 ≤ (G - B) / (M - m) ∧ (G - B) / (M - m) ≤ 1 :=
    ⟨by rw [le_div_iff₀ hd]; linarith, by rw [div_le_one hd]; linarith⟩
  all_goals have hBRu : -1 ≤ (B - R) / (M - m) ∧ (B - R) / (M - m) ≤ 1 :=
    ⟨by rw [le_div_iff₀ hd]; linarith, by rw [div_le_one hd]; linarith⟩
  all_goals have hRGu : -1 ≤ (R - G) / (M - m) ∧ (R - G) / (M - m) ≤ 1 :=
    ⟨by rw [le_div_iff₀ hd]; linarith, by rw [div_le_one hd]; linarith⟩
  all_goals try have hsgn : (G - B) / (M - m) ≤ 0 := by rw [div_le_iff₀ hd]; linarith
  all_goals try have hsgn2 : 0 ≤ (G - B) / (M - m) := by rw [le_div_iff₀ hd]; linarith
  all_goals have hsA : 0 ≤ (M - m) / (2 - M - m) ∧ (M - m) / (2 - M - m) ≤ 1 :=
    ⟨div_nonneg (by linarith) (by linarith), by rw [div_le_one (by linarith)]; linarith⟩
  all_goals have hsB : 0 ≤ (M - m) / (M + m) ∧ (M - m) / (M + m) ≤ 1 :=
    ⟨div_nonneg (by linarith) (by linarith), by rw [div_le_one (by linarith)]; linarith⟩
  all_goals refine ⟨by linarith [hGBu.1, hBRu.1, hRGu.1], by linarith [hGBu.2, hBRu.2, hRGu.2],
    by first | exact hsA.1 | exact hsB.1, by first | exact hsA.2 | exact hsB.2,
    by linarith, by linarith⟩

lemma rgbToHsl_bounds (r g b : ℚ) (hr0 : 0 ≤ r) (hr1 : r ≤ 255) (hg0 : 0 ≤ g) (hg1 : g ≤ 255)
    (hb0 : 0 ≤ b) (hb1 : b ≤ 255) :
    0 ≤ (rgbToHsl r g b).1 ∧ (rgbToHsl r g b).1 ≤ 1 ∧ 0 ≤ (rgbToHsl r g b).2.1 ∧
    (rgbToHsl r g b).2.1 ≤ 1 ∧ 0 ≤ (rgbToHsl r g b).2.2 ∧ (rgbToHsl r g b).2.2 ≤ 1 := by
  have h255 : (0:ℚ) < 255 := by norm_num
  exact rgbToHslCore_bounds (r/255) (g/255) (b/255) _ _ _
    (by positivity) (by rw [div_le_one h255]; linarith)
    (by positivity) (by rw [div_le_one h255]; linarith)
    (by positivity) (by rw [div_le_one h255]; linarith)
    rfl

lemma hue2rgb_mem (p q t : ℚ) (hp : 0 ≤ p) (hpq : p ≤ q) (hq : q ≤ 1)
    (ht1 : -1 ≤ t) (ht2 : t ≤ 2) :
    0 ≤ hue2rgb p q t ∧ hue2rgb p q t ≤ 1 := by
  simp only [hue2rgb]
  split_ifs <;> constructor <;> nlinarith

lemma qOf_bounds (s l : ℚ) (hs0 : 0 ≤ s) (hs1 : s ≤ 1) (hl0 : 0 ≤ l) (hl1 : l ≤ 1) :
    0 ≤ 2 * l - qOf s l ∧ 2 * l - qOf s l ≤ qOf s l ∧ qOf s l ≤ 1 := by
  unfold qOf
  split_ifs with h <;> refine ⟨?_, ?_, ?_⟩ <;> nlinarith

lemma round_mem_0_255 (x : ℚ) (h0 : 0 ≤ x) (h1 : x ≤ 1) :
    0 ≤ round (x * 255) ∧ round (x * 255) ≤ 255 := by
  rw [round_eq]
  constructor
  · exact Int.floor_nonneg.mpr (by linarith)
  · have hlt : (⌊x * 255 + 1/2⌋ : ℤ) < 256 := Int.floor_lt.mpr (by push_cast; linarith)
    omega

lemma hslToRgb_bounds (h s l : ℚ) (hh0 : 0 ≤ h) (hh1 : h ≤ 1) (hs0 : 0 ≤ s) (hs1 : s ≤ 1)
    (hl0 : 0 ≤ l) (hl1 : l ≤ 1) :
    0 ≤ (hslToRgb h s l).1 ∧ (hslToRgb h s l).1 ≤ 255 ∧
    0 ≤ (hslToRgb h s l).2.1 ∧ (hslToRgb h s l).2.1 ≤ 255 ∧
    0 ≤ (hslToRgb h s l).2.2 ∧ (hslToRgb h s l).2.2 ≤ 255 := by
  by_cases hs : s = 0
  · subst hs
    rw [hslToRgb_achromatic]
    have hr := round_mem_0_255 l hl0 hl1
    exact ⟨hr.1, hr.2, hr.1, hr.2, hr.1, hr.2⟩
  · rw [hslToRgb_chromatic h s l hs]
    have hq := qOf_bounds s l hs0 hs1 hl0 hl1
    have c1 := hue2rgb_mem (2 * l - qOf s l) (qOf s l) (h + 1/3) hq.1 hq.2.1 hq.2.2
      (by linarith) (by linarith)
    have c2 := hue2rgb_mem (2 * l - qOf s l) (qOf s l) h hq.1 hq.2.1 hq.2.2
      (by linarith) (by linarith)
    have c3 := hue2rgb_mem (2 * l - qOf s l) (qOf s l) (h - 1/3) hq.1 hq.2.1 hq.2.2
      (by linarith) (by linarith)
    have r1 := round_mem_0_255 _ c1.1 c1.2
    have r2 := round_mem_0_255 _ c2.1 c2.2
    have r3 := round_mem_0_255 _ c3.1 c3.2
    exact ⟨r1.1, r1.2, r2.1, r2.2, r3.1, r3.2⟩

lemma hexVal_le_15 (c : Char) (h : isHexDig c = true) : hexVal c ≤ 15 := by
  simp only [isHexDig, isDig, Bool.or_eq_true, decide_eq_true_eq] at h
  simp only [hexVal, isDig]
  split_ifs with h1 h2 <;> simp only [decide_eq_true_eq] at h1 <;> omega

lemma getD_mem_of_lt (l : List Char) (i : ℕ) (d : Char) (h : i < l.length) :
    l.getD i d ∈ l := by
  rw [List.getD_eq_getElem l d h]
  exact List.getElem_mem h

lemma hexToRgb_valid (s : String) : ValidRgba (hexToRgb s) := by
  simp only [hexToRgb]
  split_ifs with h1 h2
  · have hbound : ∀ i j : ℕ, i < 6 → j < 6 →
        ((hexPair ((stripHash s.data).getD i '0') ((stripHash s.data).getD j '0') : ℕ) : ℚ)
          ≤ 255 := by
      intro i j hi hj
      have hvi := hexVal_le_15 _ (List.all_eq_true.mp h1.2 _
        (getD_mem_of_lt _ i '0' (by rw [h1.1]; omega)))
      have hvj := hexVal_le_15 _ (List.all_eq_true.mp h1.2 _
        (getD_mem_of_lt _ j '0' (by rw [h1.1]; omega)))
      have hp : hexPair ((stripHash s.data).getD i '0') ((stripHash s.data).getD j '0')
          ≤ 255 := by
        unfold hexPair
        omega
      exact_mod_cast hp
    exact ⟨by positivity, hbound 0 1 (by omega) (by omega), by positivity,
      hbound 2 3 (by omega) (by omega), by positivity, hbound 4 5 (by omega) (by omega),
      by norm_num, by norm_num⟩
  · have hbound : ∀ i j : ℕ, i < 8 → j < 8 →
        ((hexPair ((stripHash s.data).getD i '0') ((stripHash s.data).getD j '0') : ℕ) : ℚ)
          ≤ 255 := by
      intro i j hi hj
      have hvi := hexVal_le_15 _ (List.all_eq_true.mp h2.2 _
        (getD_mem_of_lt _ i '0' (by rw [h2.1]; omega)))
      have hvj := hexVal_le_15 _ (List.all_eq_true.mp h2.2 _
        (getD_mem_of_lt _ j '0' (by rw [h2.1]; omega)))
      have hp : hexPair ((stripHash s.data).getD i '0') ((stripHash s.data).getD j '0')
          ≤ 255 := by
        unfold hexPair
        omega
      exact_mod_cast hp
    refine ⟨by positivity, hbound 0 1 (by omega) (by omega), by positivity,
      hbound 2 3 (by omega) (by omega), by positivity, hbound 4 5 (by omega) (by omega),
      by positivity, ?_⟩
    rw [div_le_one (by norm_num : (0:ℚ) < 255)]
    exact hbound 6 7 (by omega) (by omega)
  · norm_num [ValidRgba]

lemma handleWheelMove_valid (radius dist angle2pi : ℚ) (c : ColorState) (hrad : 0 < radius)
    (hdist : 0 ≤ dist) (ha1 : -(1/2) < angle2pi) (hc : ValidState c) :
    ValidState (handleWheelMove radius dist angle2pi c) := by
  obtain ⟨hh0, hh1, hs0, hs1, hl0, hl1, ha0, ha2⟩ := hc
  have hfr := jsMod1_bounds (angle2pi + 1) (by linarith)
  refine ⟨hfr.1, le_of_lt hfr.2, ?_, ?_, ?_, ?_, ha0, ha2⟩
  · show 0 ≤ (if radius < dist then radius else dist) / radius
    split_ifs
    · exact div_nonneg (le_of_lt hrad) (le_of_lt hrad)
    · exact div_nonneg hdist (le_of_lt hrad)
  · show (if radius < dist then radius else dist) / radius ≤ 1
    rw [div_le_one hrad]
    split_ifs with hlt
    · exact le_refl radius
    · exact le_of_not_lt hlt
  · show 0 ≤ (if c.l = 1 ∨ c.l = 0 then 1/2 else c.l)
    split_ifs
    · norm_num
    · exact hl0
  · show (if c.l = 1 ∨ c.l = 0 then 1/2 else c.l) ≤ 1
    split_ifs
    · norm_num
    · exact hl1

lemma handleLightnessMove_valid (x width : ℚ) (c : ColorState) (hw : 0 < width)
    (hc : ValidState c) : ValidState (handleLightnessMove x width c) := by
  obtain ⟨hh0, hh1, hs0, hs1, hl0, hl1, ha0, ha2⟩ := hc
  refine ⟨hh0, hh1, hs0, hs1, ?_, ?_, ha0, ha2⟩
  · show 0 ≤ max 0 (min x width) / width
    exact div_nonneg (le_max_left _ _) (le_of_lt hw)
  · show max 0 (min x width) / width ≤ 1
    rw [div_le_one hw]
    exact max_le (le_of_lt hw) (min_le_right _ _)

lemma wheelKeydown_valid (key : Key) (shift : Bool) (c : ColorState) (hc : ValidState c) :
    ValidState (wheelKeydown key shift c) := by
  obtain ⟨hh0, hh1, hs0, hs1, hl0, hl1, ha0, ha2⟩ := hc
  have hstep0 : (0:ℚ) < if shift then (5:ℚ)/100 else 1/100 := by cases shift <;> norm_num
  have hstep1 : (if shift then (5:ℚ)/100 else 1/100) ≤ 5/100 := by cases shift <;> norm_num
  cases key with
  | arrowLeft =>
      have hfr := jsMod1_bounds (c.h - (if shift then (5:ℚ)/100 else 1/100) + 1) (by linarith)
      exact ⟨hfr.1, le_of_lt hfr.2, hs0, hs1, hl0, hl1, ha0, ha2⟩
  | arrowRight =>
      have hfr := jsMod1_bounds (c.h + (if shift then (5:ℚ)/100 else 1/100)) (by linarith)
      exact ⟨hfr.1, le_of_lt hfr.2, hs0, hs1, hl0, hl1, ha0, ha2⟩
  | arrowUp =>
      exact ⟨hh0, hh1, le_min (by norm_num) (by linarith), min_le_left _ _, hl0, hl1, ha0, ha2⟩
  | arrowDown =>
      exact ⟨hh0, hh1, le_max_left _ _, max_le (by norm_num) (by linarith), hl0, hl1, ha0, ha2⟩
  | other => exact ⟨hh0, hh1, hs0, hs1, hl0, hl1, ha0, ha2⟩

lemma lightnessKeydown_valid (key : Key) (shift : Bool) (c : ColorState) (hc : ValidState c) :
    ValidState (lightnessKeydown key shift c) := by
  obtain ⟨hh0, hh1, hs0, hs1, hl0, hl1, ha0, ha2⟩ := hc
  have hstep0 : (0:ℚ) < if shift then (5:ℚ)/100 else 1/100 := by cases shift <;> norm_num
  cases key with
  | arrowLeft =>
      exact ⟨hh0, hh1, hs0, hs1, le_max_left _ _, max_le (by norm_num) (by linarith),
        ha0, ha2⟩
  | arrowRight =>
      exact ⟨hh0, hh1, hs0, hs1, le_min (by norm_num) (by linarith), min_le_left _ _,
        ha0, ha2⟩
  | arrowUp => exact ⟨hh0, hh1, hs0, hs1, hl0, hl1, ha0, ha2⟩
  | arrowDown => exact ⟨hh0, hh1, hs0, hs1, hl0, hl1, ha0, ha2⟩
  | other => exact ⟨hh0, hh1, hs0, hs1, hl0, hl1, ha0, ha2⟩

lemma render_inv (st : Session) (h : SessionInv st) : SessionInv (render st) := by
  obtain ⟨hc, hcache, hprev, horig, hbg⟩ := h
  simp only [render]
  split_ifs with hm
  · exact ⟨hc, hc, hprev, horig, hbg⟩
  · refine ⟨hc, hcache, hprev, horig, ?_⟩
    obtain ⟨hh0, hh1, hs0, hs1, hl0, hl1, ha0, ha2⟩ := hc
    have hb := hslToRgb_bounds st.colorState.h st.colorState.s st.colorState.l
      hh0 hh1 hs0 hs1 hl0 hl1
    have hcast : ∀ z : ℤ, 0 ≤ z → z ≤ 255 → 0 ≤ (z:ℚ) ∧ (z:ℚ) ≤ 255 :=
      fun z h1 h2 => ⟨by exact_mod_cast h1, by exact_mod_cast h2⟩
    exact ⟨(hcast _ hb.1 hb.2.1).1, (hcast _ hb.1 hb.2.1).2,
      (hcast _ hb.2.2.1 hb.2.2.2.1).1, (hcast _ hb.2.2.1 hb.2.2.2.1).2,
      (hcast _ hb.2.2.2.2.1 hb.2.2.2.2.2).1, (hcast _ hb.2.2.2.2.1 hb.2.2.2.2.2).2, ha0, ha2⟩

lemma setEditMode_inv (mode : EditMode) (st : Session) (h : SessionInv st) :
    SessionInv (setEditMode mode st) := by
  obtain ⟨hc, hcache, hprev, horig, hbg⟩ := h
  simp only [setEditMode]
  split_ifs with hm
  · apply render_inv
    refine ⟨?_, hcache, hprev, horig, hbg⟩
    obtain ⟨hr0, hr1, hg0, hg1, hb0, hb1, ha0, ha2⟩ := hbg
    have hb := rgbToHsl_bounds st.backgroundColor.r st.backgroundColor.g st.backgroundColor.b
      hr0 hr1 hg0 hg1 hb0 hb1
    exact ⟨hb.1, hb.2.1, hb.2.2.1, hb.2.2.2.1, hb.2.2.2.2.1, hb.2.2.2.2.2, ha0, ha2⟩
  · apply render_inv
    exact ⟨hcache, hcache, hprev, horig, hbg⟩

lemma openPicker_inv (orig curr : Rgba) (st : Session) (ho : ValidRgba orig)
    (hcu : ValidRgba curr) (hbg : ValidRgba st.backgroundColor) :
    SessionInv (openPicker orig curr st) := by
  obtain ⟨hor0, hor1, hog0, hog1, hob0, hob1, hoa0, hoa1⟩ := ho
  obtain ⟨hcr0, hcr1, hcg0, hcg1, hcb0, hcb1, hca0, hca1⟩ := hcu
  have hcb := rgbToHsl_bounds curr.r curr.g curr.b hcr0 hcr1 hcg0 hcg1 hcb0 hcb1
  have hob := rgbToHsl_bounds orig.r orig.g orig.b hor0 hor1 hog0 hog1 hob0 hob1
  have hcur : ValidState ⟨(rgbToHsl curr.r curr.g curr.b).1, (rgbToHsl curr.r curr.g curr.b).2.1,
      (rgbToHsl curr.r curr.g curr.b).2.2, curr.a⟩ :=
    ⟨hcb.1, hcb.2.1, hcb.2.2.1, hcb.2.2.2.1, hcb.2.2.2.2.1, hcb.2.2.2.2.2, hca0, hca1⟩
  have horst : ValidState ⟨(rgbToHsl orig.r orig.g orig.b).1, (rgbToHsl orig.r orig.g orig.b).2.1,
      (rgbToHsl orig.r orig.g orig.b).2.2, orig.a⟩ :=
    ⟨hob.1, hob.2.1, hob.2.2.1, hob.2.2.2.1, hob.2.2.2.2.1, hob.2.2.2.2.2, hoa0, hoa1⟩
  simp only [openPicker]
  apply render_inv
  apply setEditMode_inv
  exact ⟨hcur, hcur, hcur, horst, hbg⟩

lemma applyOp_inv (op : Op) (st : Session) (hv : op.Valid) (h : SessionInv st) :
    SessionInv (applyOp op st) := by
  obtain ⟨hc, hcache, hprev, horig, hbg⟩ := h
  cases op with
  | openPicker orig curr => exact openPicker_inv orig curr st hv.1 hv.2 hbg
  | wheelMove radius dist angle2pi =>
      apply render_inv
      exact ⟨handleWheelMove_valid radius dist angle2pi st.colorState hv.1 hv.2.1 hv.2.2.1 hc,
        hcache, hprev, horig, hbg⟩
  | lightnessMove x width =>
      apply render_inv
      exact ⟨handleLightnessMove_valid x width st.colorState hv hc, hcache, hprev, horig, hbg⟩
  | wheelKey key shift =>
      simp only [applyOp]
      split_ifs with hk
      · exact ⟨hc, hcache, hprev, horig, hbg⟩
      · apply render_inv
        exact ⟨wheelKeydown_valid key shift st.colorState hc, hcache, hprev, horig, hbg⟩
  | lightnessKey key shift =>
      simp only [applyOp]
      split_ifs with hk
      · apply render_inv
        exact ⟨lightnessKeydown_valid key shift st.colorState hc, hcache, hprev, horig, hbg⟩
      · exact ⟨hc, hcache, hprev, horig, hbg⟩
  | alphaInput v =>
      apply render_inv
      obtain ⟨hh0, hh1, hs0, hs1, hl0, hl1, _, _⟩ := hc
      exact ⟨⟨hh0, hh1, hs0, hs1, hl0, hl1, hv.1, hv.2⟩, hcache, hprev, horig, hbg⟩
  | toggleMode => exact setEditMode_inv _ st ⟨hc, hcache, hprev, horig, hbg⟩
  | restorePrevious =>
      simp only [applyOp]
      split_ifs with hm
      · apply render_inv
        exact ⟨hprev, hcache, hprev, horig, hbg⟩
      · exact ⟨hc, hcache, hprev, horig, hbg⟩
  | restoreOriginal =>
      simp only [applyOp]
      split_ifs with hm
      · apply render_inv
        exact ⟨horig, hcache, hprev, horig, hbg⟩
      · exact ⟨hc, hcache, hprev, horig, hbg⟩
  | eyedropper hex =>
      apply render_inv
      obtain ⟨her0, her1, heg0, heg1, heb0, heb1, _, _⟩ := hexToRgb_valid hex
      have hb := rgbToHsl_bounds (hexToRgb hex).r (hexToRgb hex).g (hexToRgb hex).b
        her0 her1 heg0 heg1 heb0 heb1
      exact ⟨⟨hb.1, hb.2.1, hb.2.2.1, hb.2.2.2.1, hb.2.2.2.2.1, hb.2.2.2.2.2,
        by norm_num, by norm_num⟩, hcache, hprev, horig, hbg⟩
  | confirmPick =>
      simp only [applyOp, confirm, close]
      split
      · exact ⟨hc, hcache, hprev, horig, hbg⟩
      · exact ⟨hc, hcache, hprev, horig, hbg⟩
  | closePicker => exact ⟨hc, hcache, hprev, horig, hbg⟩

/-- C3: starting from `open(config)` with parseable color strings (strings
whose parse yields channels in range, as every accepted `#RRGGBB(AA)` /
`rgb()` color string does), every sequence of valid operations keeps the
four fields of the live ColorState inside `[0,1]`. -/
theorem claim_C3_state_invariant (st0 : Session) (sOrig sCurr : String) (co cc : Rgba)
    (hbg : ValidRgba st0.backgroundColor)
    (hpo : parseColor sOrig = (some co.r, some co.g, some co.b, some co.a))
    (hvo : ValidRgba co)
    (hpc : parseColor sCurr = (some cc.r, some cc.g, some cc.b, some cc.a))
    (hvc : ValidRgba cc)
    (ops : List Op) (hops : ∀ op ∈ ops, op.Valid) :
    ValidState (applyOps ops (openPicker co cc st0)).colorState := by
  have key : ∀ (l : List Op) (st : Session), SessionInv st → (∀ op ∈ l, op.Valid) →
      SessionInv (applyOps l st) := by
    intro l
    induction l with
    | nil => exact fun st h _ => h
    | cons op rest ih =>
        intro st h hops2
        simp only [applyOps, List.foldl_cons]
        exact ih (applyOp op st) (applyOp_inv op st (hops2 op (by simp)) h)
          (fun o ho => hops2 o (by simp [ho]))
  exact (key ops _ (openPicker_inv co cc st0 hvo hvc hbg) hops).1

/-- Witness for C3 on a concrete operation sequence. -/
theorem claim_C3_state_invariant_witness :
    ValidState (applyOps [Op.wheelMove 1 2 (1/4), Op.toggleMode, Op.wheelKey Key.arrowLeft true]
      (openPicker ⟨255, 0, 0, 1⟩ ⟨0, 255, 0, 1⟩ sampleSession)).colorState := by
  refine claim_C3_state_invariant sampleSession "#FF0000" "#00FF00" ⟨255, 0, 0, 1⟩
    ⟨0, 255, 0, 1⟩ (by norm_num [sampleSession, ValidRgba]) (by decide)
    (by norm_num [ValidRgba]) (by decide) (by norm_num [ValidRgba]) _ ?_
  intro op hop
  simp only [List.mem_cons, List.not_mem_nil, or_false] at hop
  rcases hop with rfl | rfl | rfl
  · exact ⟨by norm_num, by norm_num, by norm_num, by norm_num⟩
  · trivial
  · trivial

/-- C2: per session, the stored onConfirm callback is invoked at most once:
`confirm()` invokes it exactly once (with `previousColorState` in background
mode, else `swatchStateCache`) and transitions to closed; `close()` clears
the stored callback, so a later `confirm()` does not invoke it again. -/
theorem claim_C2_confirm_once (st : Session) (h : st.hasCallback = true) :
    (confirm st).emitted = st.emitted ++
      [if st.editMode = EditMode.background then st.previousColorState
       else st.swatchStateCache] ∧
    (confirm st).hasCallback = false ∧
    (confirm st).isOpen = false ∧
    (close st).hasCallback = false ∧
    (confirm (close st)).emitted = st.emitted ∧
    (∀ st2 : Session, st2.hasCallback = false → (confirm st2).emitted = st2.emitted) := by
  refine ⟨?_, ?_, ?_, ?_, ?_, ?_⟩
  · simp [confirm, close, h]
  · simp [confirm, close]
  · simp [confirm, close]
  · simp [close]
  · simp [confirm, close]
  · intro st2 h2
    simp [confirm, close, h2]

/-- Witness for C2 on a concrete open session. -/
theorem claim_C2_confirm_once_witness :
    (confirm sampleSession).emitted = sampleSession.emitted ++
      [if sampleSession.editMode = EditMode.background then sampleSession.previousColorState
       else sampleSession.swatchStateCache] ∧
    (confirm sampleSession).hasCallback = false ∧
    (confirm sampleSession).isOpen = false ∧
    (close sampleSession).hasCallback = false ∧
    (confirm (close sampleSession)).emitted = sampleSession.emitted :=
  have h := claim_C2_confirm_once sampleSession rfl
  ⟨h.1, h.2.1, h.2.2.1, h.2.2.2.1, h.2.2.2.2.1⟩

/-- C5: while the edit mode is background, no state-mutating operation of
the session (open excluded, which reseeds the whole session) ever modifies
`swatchStateCache`; toggling back to swatch mode replaces the live state
with exactly the cached value. -/
theorem claim_C5_background_isolation (st : Session) (hmode : st.editMode = EditMode.background) :
    (∀ op : Op, op.Valid → op.isOpenCall = false →
      (applyOp op st).swatchStateCache = st.swatchStateCache) ∧
    (applyOp Op.toggleMode st).colorState = st.swatchStateCache := by
  constructor
  · intro op hv hop
    cases op with
    | openPicker orig curr => simp [Op.isOpenCall] at hop
    | wheelMove radius dist angle2pi => simp [applyOp, render, hmode]
    | lightnessMove x width => simp [applyOp, render, hmode]
    | wheelKey key shift => cases key <;> simp [applyOp, render, hmode]
    | lightnessKey key shift => cases key <;> simp [applyOp, render, hmode]
    | alphaInput v => simp [applyOp, render, hmode]
    | toggleMode => simp [applyOp, setEditMode, render, hmode]
    | restorePrevious => simp [applyOp, hmode]
    | restoreOriginal => simp [applyOp, hmode]
    | eyedropper hex => simp [applyOp, render, hmode]
    | confirmPick =>
        simp only [applyOp, confirm, close]
        split <;> rfl
    | closePicker => rfl
  · simp [applyOp, setEditMode, render, hmode]

/-- Witness for C5: an alpha edit in background mode leaves the cache
untouched, and toggling back restores it into the live state. -/
theorem claim_C5_background_isolation_witness :
    (applyOp (Op.alphaInput (1/2)) { sampleSession with editMode := EditMode.background
      }).swatchStateCache = sampleSession.swatchStateCache ∧
    (applyOp Op.toggleMode { sampleSession with editMode := EditMode.background
      }).colorState = sampleSession.swatchStateCache := by
  have h := claim_C5_background_isolation { sampleSession with editMode := EditMode.background }
    rfl
  exact ⟨h.1 (Op.alphaInput (1/2)) (by norm_num [Op.Valid]) rfl, h.2⟩

/-- C1: `open({originalColor:"#FF0000", currentColor:"#00FF00", onConfirm})`
followed immediately by `confirm()` invokes the callback exactly once, with
the state `{h: 1/3, s: 1, l: 0.5, a: 1}` (green in HSL), for every prior
session state; `parseColor` maps the two hex strings to the rgba quadruples
fed to `open`. -/
theorem claim_C1_end_to_end :
    parseColor "#FF0000" = (some 255, some 0, some 0, some 1) ∧
    parseColor "#00FF00" = (some 0, some 255, some 0, some 1) ∧
    ∀ st0 : Session,
      (confirm (openPicker ⟨255, 0, 0, 1⟩ ⟨0, 255, 0, 1⟩ st0)).emitted
          = st0.emitted ++ [⟨1/3, 1, 1/2, 1⟩] ∧
      (confirm (openPicker ⟨255, 0, 0, 1⟩ ⟨0, 255, 0, 1⟩ st0)).hasCallback = false ∧
      (confirm (openPicker ⟨255, 0, 0, 1⟩ ⟨0, 255, 0, 1⟩ st0)).isOpen = false := by
  have hgreen : rgbToHsl 0 255 0 = (1/3, 1, 1/2) := by
    norm_num [rgbToHsl, rgbToHslCore, max_def, min_def]
  have hred : rgbToHsl 255 0 0 = (0, 1, 1/2) := by
    norm_num [rgbToHsl, rgbToHslCore, max_def, min_def]
  refine ⟨by decide, by decide, fun st0 => ?_⟩
  refine ⟨?_, by simp [confirm, close, openPicker, setEditMode, render],
    by simp [confirm, close, openPicker, setEditMode, render]⟩
  simp [confirm, close, openPicker, setEditMode, render, hgreen]

end EBECP
